import Mathlib

/-!
Verification of the PTT crawler core (src/ptt_crawler.py) against its
natural-language specification. Strings are modelled as `List Char`;
each Python helper is embedded as an executable Lean function.
-/

set_option autoImplicit false

namespace PttCrawler

/-! ### Python string primitives -/

/-- Characters treated as whitespace by Python's `str.strip()` / `str.split()`. -/
def isSpacePy (c : Char) : Bool :=
  c = ' ' || c = '\t' || c = '\n' || c = '\r' || c = '\x0b' || c = '\x0c'

/-- Python `str.strip()`: remove leading and trailing whitespace. -/
def stripPy (s : List Char) : List Char :=
  ((s.dropWhile isSpacePy).reverse.dropWhile isSpacePy).reverse

/-- Shorthand turning a string literal into the list of its characters. -/
def strL (s : String) : List Char := s.toList

/-- Split at the first occurrence of the character `c`: the parts before and
after it, or `none` when `c` does not occur. -/
def breakAtFirst (c : Char) : List Char → Option (List Char × List Char)
  | [] => none
  | x :: xs =>
    if x = c then some ([], xs)
    else
      match breakAtFirst c xs with
      | some (pre, post) => some (x :: pre, post)
      | none => none

/-- Python `s.partition(c)` for a one-character separator:
`(before, sep, after)`, and `(s, '', '')` when `c` does not occur. -/
def partitionChar (c : Char) (s : List Char) : List Char × List Char × List Char :=
  match breakAtFirst c s with
  | some (pre, post) => (pre, [c], post)
  | none => (s, [], [])

/-- Python `s.rpartition(c)` for a one-character separator:
`(before, sep, after)` at the last occurrence, and `('', '', s)` when `c`
does not occur. -/
def rpartitionChar (c : Char) (s : List Char) : List Char × List Char × List Char :=
  match breakAtFirst c s.reverse with
  | some (pre, post) => (post.reverse, [c], pre.reverse)
  | none => ([], [], s)

/-- Boolean prefix test on character lists. -/
def isPfx : List Char → List Char → Bool
  | [], _ => true
  | _ :: _, [] => false
  | a :: as, b :: bs => if a = b then isPfx as bs else false

/-- Split at the first occurrence of the contiguous pattern `pat`: the parts
before and after it, or `none` when `pat` does not occur. Models Python's
`partition` with a multi-character separator (all uses have `pat ≠ []`). -/
def splitAtFirstSeq (pat : List Char) : List Char → Option (List Char × List Char)
  | [] => none
  | x :: xs =>
    if isPfx pat (x :: xs) then some ([], (x :: xs).drop pat.length)
    else
      match splitAtFirstSeq pat xs with
      | some (pre, post) => some (x :: pre, post)
      | none => none

/-- Python substring test `pat in s` for a nonempty pattern. -/
def containsSeq (pat s : List Char) : Bool := (splitAtFirstSeq pat s).isSome

/-! ### Utility functions of the crawler (src/ptt_crawler.py lines 50-88) -/

/-- Model of `parse_title` (lines 70-88): the category is the text after the
first `'['` and before the last `']'` of the remainder (`partition` then
`rpartition`), turned into `none` when empty; `isreply` / `isforward` are
substring tests for `"Re:"` / `"Fw:"`. -/
def parse_title (title : List Char) : Option (List Char) × Bool × Bool :=
  let remain := (partitionChar '[' title).2.2
  let category := (rpartitionChar ']' remain).1
  (if category = [] then none else some category,
   containsSeq (strL "Re:") title,
   containsSeq (strL "Fw:") title)

/-- Model of `parse_std_url` (lines 50-67): rpartition at `'/'`, strip the
extension with rpartition at `'.'`, rpartition the prefix at `'/'`, and drop
one leading character from the root. Returns `(root, board, contentId)`. -/
def parse_std_url (url : List Char) : List Char × List Char × List Char :=
  let r1 := rpartitionChar '/' url
  let r2 := rpartitionChar '.' r1.2.2
  let r3 := rpartitionChar '/' r1.1
  (r3.1.drop 1, r3.2.2, r2.1)

/-! ### Lemmas about the string primitives -/

theorem breakAtFirst_not_mem {c : Char} {s : List Char} (h : c ∉ s) :
    breakAtFirst c s = none := by
  induction s with
  | nil => rfl
  | cons x xs ih =>
    rw [List.mem_cons, not_or] at h
    simp [breakAtFirst, Ne.symm h.1, ih h.2]

theorem breakAtFirst_append {c : Char} {pre post : List Char} (h : c ∉ pre) :
    breakAtFirst c (pre ++ c :: post) = some (pre, post) := by
  induction pre with
  | nil => simp [breakAtFirst]
  | cons x xs ih =>
    rw [List.mem_cons, not_or] at h
    simp [breakAtFirst, Ne.symm h.1, ih h.2]

theorem partitionChar_not_mem {c : Char} {s : List Char} (h : c ∉ s) :
    partitionChar c s = (s, [], []) := by
  rw [partitionChar, breakAtFirst_not_mem h]

theorem partitionChar_append {c : Char} {pre post : List Char} (h : c ∉ pre) :
    partitionChar c (pre ++ c :: post) = (pre, [c], post) := by
  rw [partitionChar, breakAtFirst_append h]

theorem rpartitionChar_not_mem {c : Char} {s : List Char} (h : c ∉ s) :
    rpartitionChar c s = ([], [], s) := by
  rw [rpartitionChar, breakAtFirst_not_mem (by simpa using h)]

theorem rpartitionChar_append {c : Char} {pre post : List Char} (h : c ∉ post) :
    rpartitionChar c (pre ++ c :: post) = (pre, [c], post) := by
  have hrev : (pre ++ c :: post).reverse = post.reverse ++ c :: pre.reverse := by
    simp
  rw [rpartitionChar, hrev, breakAtFirst_append (by simpa using h)]
  simp

/-! ### Claim C1: category extraction from a raw title -/

/-- C1 counterexample: for the raw title `"[a][b]"` the code extracts the
category `"a][b"` (text up to the last `']'`), not `"a"` (text up to the
first `']'` matching the first `'['`) as the claim states. -/
theorem parse_title_first_bracket_cex :
    (parse_title (strL "[a][b]")).1 = some (strL "a][b") ∧
      (parse_title (strL "[a][b]")).1 ≠ some (strL "a") := by
  constructor
  · decide
  · decide

/-- C1 (amended): the category is the text strictly between the first `'['`
and the last `']'` after it, turned into `none` when that text is empty,
and `none` when the title has no `'['` or no `']'` after its first `'['`. -/
theorem parse_title_category_spec :
    (∀ pre mid post : List Char, '[' ∉ pre → ']' ∉ post →
        (parse_title (pre ++ '[' :: (mid ++ ']' :: post))).1 =
          if mid = [] then none else some mid) ∧
    (∀ t : List Char, '[' ∉ t → (parse_title t).1 = none) ∧
    (∀ pre mid : List Char, '[' ∉ pre → ']' ∉ mid →
        (parse_title (pre ++ '[' :: mid)).1 = none) := by
  refine ⟨?_, ?_, ?_⟩
  · intro pre mid post h1 h2
    simp [parse_title, partitionChar_append h1, rpartitionChar_append h2]
  · intro t h
    simp [parse_title, partitionChar_not_mem h,
      rpartitionChar_not_mem (List.not_mem_nil ']')]
  · intro pre mid h1 h2
    simp [parse_title, partitionChar_append h1, rpartitionChar_not_mem h2]

/-- Witness for the C1 amended theorem at concrete titles: a nonempty
bracket pair, an empty bracket pair, and a bracketless title. -/
theorem parse_title_category_spec_w :
    (parse_title (strL "x" ++ '[' :: (strL "cat" ++ ']' :: strL "y"))).1 =
        some (strL "cat") ∧
      (parse_title (strL "x" ++ '[' :: ([] ++ ']' :: strL "y"))).1 = none ∧
      (parse_title (strL "Re: no brackets")).1 = none := by
  refine ⟨?_, ?_, ?_⟩
  · have h := parse_title_category_spec.1 (strL "x") (strL "cat") (strL "y")
      (by decide) (by decide)
    rw [if_neg (by decide)] at h
    exact h
  · have h := parse_title_category_spec.1 (strL "x") [] (strL "y")
      (by decide) (by decide)
    rw [if_pos rfl] at h
    exact h
  · exact parse_title_category_spec.2.1 (strL "Re: no brackets") (by decide)

/-! ### Claim C6: parse_std_url never fails -/

/-- C6 counterexample: `parse_std_url` has no failure path. On the empty
address and on a separator-free address — exactly the inputs the claim says
must fail with MalformedAddress — it returns a triple normally. -/
theorem parse_std_url_no_failure_cex :
    parse_std_url [] = ([], [], []) ∧ parse_std_url (strL "abc") = ([], [], []) := by
  constructor
  · rfl
  · decide

/-- C6 (amended): `parse_std_url` never fails; every input yields a
`(root, board, contentId)` triple, with empty root and board whenever the
input has no path separator, and the usual site-relative article address
parsed into its three components. -/
theorem parse_std_url_total_spec :
    (∀ url : List Char, '/' ∉ url →
        (parse_std_url url).1 = [] ∧ (parse_std_url url).2.1 = []) ∧
    parse_std_url (strL "/bbs/Gossiping/M.1512057611.A.16B.html") =
      (strL "bbs", strL "Gossiping", strL "M.1512057611.A.16B") := by
  constructor
  · intro url h
    simp [parse_std_url, rpartitionChar_not_mem h,
      rpartitionChar_not_mem (List.not_mem_nil '/')]
  · decide

/-- Witness for the C6 amended theorem at a separator-free address. -/
theorem parse_std_url_total_spec_w :
    (parse_std_url (strL "abc.html")).1 = [] ∧
      (parse_std_url (strL "abc.html")).2.1 = [] :=
  parse_std_url_total_spec.1 (strL "abc.html") (by decide)

/-! ### Comment aggregation (Pushes, lines 486-524) -/

/-- One comment event, the `Msg` namedtuple (line 110). -/
structure Msg where
  type : List Char
  user : List Char
  content : List Char
  ipdatetime : List Char
  deriving DecidableEq, Repr

/-- The counts dictionary built by `Pushes.countit` (lines 503-516), with its
five initial keys plus the `score` key added at the end. -/
structure PushCount where
  all : Nat
  abs : Nat
  like : Nat
  boo : Nat
  neutral : Nat
  score : Int
  deriving DecidableEq, Repr

/-- The classification loop of `countit` (lines 506-512): `推` counts as
like, `噓` as boo, anything else as neutral. -/
def countMsgs : List Msg → PushCount → PushCount
  | [], c => c
  | m :: rest, c =>
    if m.type = strL "推" then countMsgs rest { c with like := c.like + 1 }
    else if m.type = strL "噓" then countMsgs rest { c with boo := c.boo + 1 }
    else countMsgs rest { c with neutral := c.neutral + 1 }

/-- The full `countit` computation (lines 503-516): zero the counts, classify
every message, then set `all` and `score` from the three class counts. -/
def computeCount (msgs : List Msg) : PushCount :=
  let c := countMsgs msgs ⟨0, 0, 0, 0, 0, 0⟩
  { c with all := c.like + c.boo + c.neutral,
           score := (c.like : Int) - (c.boo : Int) }

/-- The `Pushes` object state: its message list and its counts field. -/
structure Pushes where
  msgs : List Msg
  count : PushCount
  deriving DecidableEq, Repr

/-- Model of the method `Pushes.countit`: recompute the counts dictionary
from the message list, leaving the messages untouched. -/
def Pushes.countit (p : Pushes) : Pushes :=
  { p with count := computeCount p.msgs }

/-! ### Claim C2: count invariants of countit -/

/-- C2: after `countit`, `all = like + boo + neutral` and
`score = like - boo` hold for every event sequence, and the empty sequence
yields all-zero counts. -/
theorem countit_invariant (p : Pushes) :
    p.countit.count.all =
        p.countit.count.like + p.countit.count.boo + p.countit.count.neutral ∧
      p.countit.count.score =
        (p.countit.count.like : Int) - (p.countit.count.boo : Int) ∧
      (p.msgs = [] → p.countit.count = ⟨0, 0, 0, 0, 0, 0⟩) := by
  refine ⟨rfl, rfl, ?_⟩
  intro h
  show computeCount p.msgs = ⟨0, 0, 0, 0, 0, 0⟩
  rw [h]
  decide

/-- Witness for C2 at the empty message list (with stale counts present). -/
theorem countit_invariant_w :
    (Pushes.countit ⟨[], ⟨9, 9, 9, 9, 9, 9⟩⟩).count = ⟨0, 0, 0, 0, 0, 0⟩ :=
  (countit_invariant ⟨[], ⟨9, 9, 9, 9, 9, 9⟩⟩).2.2 rfl

/-! ### Claim C9: countit is idempotent -/

/-- C9: calling `countit` twice yields the same state as calling it once —
the message list is unchanged and the counts are recomputed from it. -/
theorem countit_idempotent (p : Pushes) : p.countit.countit = p.countit := rfl

/-! ### Content fetch (Page.__init__, lines 185-213) -/

/-- An HTTP response as seen by `Page.__init__`: status code and body text.
The network transaction itself is external input to the model. -/
structure HttpResponse where
  status : Nat
  text : List Char
  deriving DecidableEq, Repr

/-- The exception classes of the module (lines 24-46), with the source's
spelling kept. -/
inductive CrawlerError
  | inValidBeautifulSoupTag
  | noGivenURLForPage
  | pageNotFound (status : Nat)
  | artitcleIsRemoved (info : List Char)
  deriving DecidableEq, Repr

/-- Model of `Page.__init__` (lines 185-213): an empty URL raises
NoGivenURLForPage before any fetch; the response markup is stored only when
its status equals `requests.codes.ok` (that is, 200); any other status
raises PageNotFound carrying the status. -/
def page_init (url : List Char) (resp : HttpResponse) :
    Except CrawlerError (List Char) :=
  if url = [] then .error .noGivenURLForPage
  else if resp.status = 200 then .ok resp.text
  else .error (.pageNotFound resp.status)

/-! ### Claim C7: fetch success condition -/

/-- C7 counterexample: status 201 is a 2xx success status, yet the fetch
fails — the code accepts exactly status 200. -/
theorem page_init_2xx_cex :
    200 ≤ 201 ∧ 201 < 300 ∧
      page_init (strL "/bbs/Drink/index.html") ⟨201, strL "created"⟩ =
        .error (.pageNotFound 201) := by
  refine ⟨by decide, by decide, rfl⟩

/-- C7 (amended): an empty address fails with NoGivenURLForPage; a nonempty
address succeeds storing the raw markup exactly when the status is 200, and
fails with PageNotFound carrying the status otherwise. -/
theorem page_init_spec :
    (∀ r : HttpResponse, page_init [] r = .error .noGivenURLForPage) ∧
    (∀ u : List Char, ∀ r : HttpResponse, u ≠ [] →
        (page_init u r = .ok r.text ↔ r.status = 200)) ∧
    (∀ u : List Char, ∀ r : HttpResponse, u ≠ [] → r.status ≠ 200 →
        page_init u r = .error (.pageNotFound r.status)) := by
  refine ⟨fun r => rfl, ?_, ?_⟩
  · intro u r hu
    constructor
    · intro h
      by_contra hs
      simp [page_init, hu, hs] at h
    · intro hs
      simp [page_init, hu, hs]
  · intro u r hu hs
    simp [page_init, hu, hs]

/-- Witness for C7 at concrete addresses and responses. -/
theorem page_init_spec_w :
    (page_init (strL "/bbs/Drink/index.html") ⟨200, strL "<html>"⟩ =
        .ok (strL "<html>") ↔ (200 : Nat) = 200) ∧
      page_init (strL "/bbs/Drink/index.html") ⟨404, strL "nf"⟩ =
        .error (.pageNotFound 404) :=
  ⟨page_init_spec.2.1 (strL "/bbs/Drink/index.html") ⟨200, strL "<html>"⟩
      (by decide),
    page_init_spec.2.2 (strL "/bbs/Drink/index.html") ⟨404, strL "nf"⟩
      (by decide) (by decide)⟩

/-! ### Article summaries (ArticleSummary, lines 113-175) -/

/-- The fields of an `ArticleSummary` object after `__init__` (lines 116-133). -/
structure ArticleSummary where
  title : List Char
  category : Option (List Char)
  isreply : Bool
  isforward : Bool
  url : List Char
  board : List Char
  aid : List Char
  score : List Char
  date : List Char
  author : List Char
  mark : List Char
  isremoved : Bool
  removeinfo : Option (List Char)
  deriving DecidableEq, Repr

/-- Model of `ArticleSummary.__init__` (lines 116-133): derive category and
flags from the title, board and aid from the url; `isremoved` is the Python
truthiness of `removeinfo` (not None and nonempty). -/
def mkSummary (title url score date author mark : List Char)
    (removeinfo : Option (List Char)) : ArticleSummary :=
  let t := parse_title title
  let u := parse_std_url url
  { title := title, category := t.1, isreply := t.2.1, isforward := t.2.2,
    url := url, board := u.2.1, aid := u.2.2,
    score := score, date := date, author := author, mark := mark,
    isremoved := match removeinfo with | some r => !r.isEmpty | none => false,
    removeinfo := removeinfo }

/-- The removal sentinel title set for a deleted entry (line 151). -/
def removedSentinel : List Char := strL "本文章已被刪除"

/-- An `<a>` tag inside a listing entry's title div: its text and its
optional `href` attribute. -/
structure ATag where
  text : List Char
  href : Option (List Char)
  deriving DecidableEq, Repr

/-- The title div of a listing entry: its text and its optional inner link. -/
structure TitleDiv where
  text : List Char
  aTag : Option ATag
  deriving DecidableEq, Repr

/-- A listing entry block as `from_bs_tag` reads it: the title div and the
texts of the `nrec` / `date` / `author` / `mark` divs, each absent when the
corresponding `find` returns None. -/
structure BsTag where
  titleDiv : Option TitleDiv
  nrecText : Option (List Char)
  dateText : Option (List Char)
  authorText : Option (List Char)
  markText : Option (List Char)
  deriving DecidableEq, Repr

/-- Model of `ArticleSummary.from_bs_tag` (lines 135-161). Every attribute
access on a missing element raises inside the one try block and becomes
InValidBeautifulSoupTag, so the relative order of the checks is immaterial
and the date/author/mark checks are hoisted. When the title div has no inner
link, `removeinfo` is its stripped text; Python's `if not removeinfo` then
sends an empty `removeinfo` back to the normal branch, where the missing
link raises. -/
def from_bs_tag (tag : BsTag) : Except CrawlerError ArticleSummary :=
  match tag.titleDiv with
  | none => .error .inValidBeautifulSoupTag
  | some td =>
    let removeinfo : Option (List Char) :=
      match td.aTag with
      | none => some (stripPy td.text)
      | some _ => none
    match tag.dateText, tag.authorText, tag.markText with
    | some d, some au, some mk =>
      if (match removeinfo with | some r => r.isEmpty | none => true) then
        match td.aTag with
        | none => .error .inValidBeautifulSoupTag
        | some atg =>
          match atg.href with
          | none => .error .inValidBeautifulSoupTag
          | some h =>
            match tag.nrecText with
            | none => .error .inValidBeautifulSoupTag
            | some n =>
              .ok (mkSummary (stripPy atg.text) (stripPy h) (stripPy n)
                    (stripPy d) (stripPy au) (stripPy mk) removeinfo)
      else
        .ok (mkSummary removedSentinel [] [] (stripPy d) (stripPy au)
              (stripPy mk) removeinfo)
    | _, _, _ => .error .inValidBeautifulSoupTag

/-- What a call to `ArticleSummary.read` does: either raise an error or go
on to construct an `ArticlePage` from a url — that is, perform a fetch. -/
inductive ReadAction
  | raised (e : CrawlerError)
  | fetched (url : List Char)
  deriving DecidableEq, Repr

/-- Model of `ArticleSummary.read` (lines 169-175): raise ArtitcleIsRemoved
for a removed summary, otherwise fetch the summary's url. -/
def ArticleSummary.read (s : ArticleSummary) : ReadAction :=
  if s.isremoved then .raised (.artitcleIsRemoved (s.removeinfo.getD []))
  else .fetched s.url

/-! ### Claim C3: entries without an inner link are removed entries -/

/-- C3: a listing entry block without an inner link that constructs
successfully yields a removed summary: `isremoved` true, the title fixed to
the removal sentinel, an empty address, and `read()` raising
ArtitcleIsRemoved without ever fetching. -/
theorem removed_summary_spec (tag : BsTag) (s : ArticleSummary)
    (hnolink : ∀ td, tag.titleDiv = some td → td.aTag = none)
    (hok : from_bs_tag tag = .ok s) :
    s.isremoved = true ∧ s.title = removedSentinel ∧ s.url = [] ∧
      s.read = .raised (.artitcleIsRemoved (s.removeinfo.getD [])) ∧
      ∀ u, s.read ≠ .fetched u := by
  cases htd : tag.titleDiv with
  | none => rw [from_bs_tag, htd] at hok; exact absurd hok (by simp)
  | some td =>
    have ha : td.aTag = none := hnolink td htd
    rw [from_bs_tag, htd] at hok
    cases hd : tag.dateText with
    | none => rw [hd] at hok; exact absurd hok (by simp)
    | some d =>
      cases hau : tag.authorText with
      | none => rw [hd, hau] at hok; exact absurd hok (by simp)
      | some au =>
        cases hmk : tag.markText with
        | none => rw [hd, hau, hmk] at hok; exact absurd hok (by simp)
        | some mk =>
          rw [hd, hau, hmk] at hok
          simp only [ha] at hok
          by_cases hemp : (stripPy td.text).isEmpty
          · rw [if_pos hemp] at hok
            exact absurd hok (by simp)
          · rw [if_neg hemp] at hok
            have hs : s = mkSummary removedSentinel [] [] (stripPy d)
                (stripPy au) (stripPy mk) (some (stripPy td.text)) := by
              cases hok; rfl
            subst hs
            have hrem : (mkSummary removedSentinel [] [] (stripPy d)
                (stripPy au) (stripPy mk)
                (some (stripPy td.text))).isremoved = true := by
              simp [mkSummary, hemp]
            refine ⟨hrem, rfl, rfl, ?_, ?_⟩
            · rw [ArticleSummary.read, if_pos hrem]
            · intro u
              rw [ArticleSummary.read, if_pos hrem]
              simp

/-- A concrete removed listing entry: title div text present, no inner link. -/
def removedTag : BsTag :=
  { titleDiv := some ⟨strL "(本文已被刪除) [xx]", none⟩,
    nrecText := none,
    dateText := some (strL "2/17"),
    authorText := some (strL "-"),
    markText := some [] }

/-- The summary that `from_bs_tag` builds from `removedTag`. -/
def removedSummary : ArticleSummary :=
  mkSummary removedSentinel [] [] (strL "2/17") (strL "-") []
    (some (strL "(本文已被刪除) [xx]"))

/-- Witness for C3 at the concrete removed entry. -/
theorem removed_summary_spec_w :
    removedSummary.isremoved = true ∧
      removedSummary.title = removedSentinel ∧
      removedSummary.url = [] ∧
      removedSummary.read =
        .raised (.artitcleIsRemoved (removedSummary.removeinfo.getD [])) ∧
      ∀ u, removedSummary.read ≠ .fetched u :=
  removed_summary_spec removedTag removedSummary
    (by intro td h
        have : td = ⟨strL "(本文已被刪除) [xx]", none⟩ := by
          have h2 : some (⟨strL "(本文已被刪除) [xx]", none⟩ : TitleDiv) = some td := h
          exact (Option.some.inj h2).symm
        rw [this])
    rfl

/-! ### Listing page index (ArticleListPage.__init__, lines 234-243) -/

/-- Model of Python `int()` on the index digit string: the decimal value of
a nonempty all-digit string, and `none` (a ValueError) otherwise. -/
def parseDigitsAux (acc : Nat) : List Char → Option Nat
  | [] => some acc
  | c :: cs => if c.isDigit then parseDigitsAux (10 * acc + (c.toNat - 48)) cs else none

/-- Python `int()` applied to the partition remainder (empty means ValueError). -/
def parseDigits (s : List Char) : Option Nat :=
  if s = [] then none else parseDigitsAux 0 s

/-- The word `"index"` in a listing basename. -/
def indexPat : List Char := ['i', 'n', 'd', 'e', 'x']

/-- The `html` extension of a listing address. -/
def extHtml : List Char := ['h', 't', 'm', 'l']

/-- The third component of `basename.partition('index')`: the suffix after
the first occurrence of `"index"`, empty when `"index"` does not occur. -/
def indexSuffix (basename : List Char) : List Char :=
  match splitAtFirstSeq indexPat basename with
  | some (_, post) => post
  | none => []

/-- Model of the index computation of `ArticleListPage.__init__` (lines
234-243): take the digits after `index` in the page's own basename when
nonempty, otherwise take the previous page's digits plus one. An `int()`
failure is `none`. -/
def articleListIdx (url prevUrl : List Char) : Option Nat :=
  let idx := indexSuffix (parse_std_url url).2.2
  if idx ≠ [] then parseDigits idx
  else (parseDigits (indexSuffix (parse_std_url prevUrl).2.2)).map (· + 1)

/-! Lemmas for the index computation. -/

theorem isPfx_append (pat rest : List Char) : isPfx pat (pat ++ rest) = true := by
  induction pat with
  | nil => rfl
  | cons a as ih => simp [isPfx, ih]

theorem dropLen_append (l₁ l₂ : List Char) : (l₁ ++ l₂).drop l₁.length = l₂ := by
  induction l₁ with
  | nil => rfl
  | cons a as ih => simp [ih]

theorem splitAtFirstSeq_self_append (p : Char) (ps rest : List Char) :
    splitAtFirstSeq (p :: ps) ((p :: ps) ++ rest) = some ([], rest) := by
  have h1 : isPfx (p :: ps) ((p :: ps) ++ rest) = true := isPfx_append _ _
  rw [List.cons_append, splitAtFirstSeq, if_pos (by simpa using h1)]
  rw [← List.cons_append, dropLen_append]

theorem indexSuffix_self (ds : List Char) : indexSuffix (indexPat ++ ds) = ds := by
  rw [indexSuffix, show indexPat = 'i' :: ['n', 'd', 'e', 'x'] from rfl,
    splitAtFirstSeq_self_append]

theorem parseDigitsAux_isSome (acc : Nat) (ds : List Char)
    (hdig : ∀ c ∈ ds, c.isDigit) : ∃ n, parseDigitsAux acc ds = some n := by
  induction ds generalizing acc with
  | nil => exact ⟨acc, rfl⟩
  | cons c cs ih =>
    have hc : c.isDigit := hdig c (by simp)
    have hcs : ∀ x ∈ cs, x.isDigit := fun x hx => hdig x (by simp [hx])
    simpa [parseDigitsAux, hc] using ih (10 * acc + (c.toNat - 48)) hcs

theorem parseDigits_isSome {ds : List Char} (hne : ds ≠ [])
    (hdig : ∀ c ∈ ds, c.isDigit) : ∃ n, parseDigits ds = some n := by
  rw [parseDigits, if_neg hne]
  exact parseDigitsAux_isSome 0 ds hdig

theorem not_mem_of_all_digit {ds : List Char} (hdig : ∀ c ∈ ds, c.isDigit)
    {c : Char} (hc : ¬ c.isDigit) : c ∉ ds :=
  fun hm => hc (hdig c hm)

/-! ### Claim C8: page index derivation -/

/-- C8: for an address whose basename encodes a (digit) index, the page
index is that index; for the unindexed "latest" address, it is the index
encoded in the previous-page address plus one. -/
theorem articleListIdx_spec :
    (∀ pre prev ds : List Char, ds ≠ [] → (∀ c ∈ ds, c.isDigit) →
        ∃ n, parseDigits ds = some n ∧
          articleListIdx (pre ++ '/' :: ((indexPat ++ ds) ++ '.' :: extHtml))
            prev = some n) ∧
    (∀ pre pre2 ds : List Char, ∀ K : Nat, (∀ c ∈ ds, c.isDigit) →
        parseDigits ds = some K →
        articleListIdx (pre ++ '/' :: (indexPat ++ '.' :: extHtml))
          (pre2 ++ '/' :: ((indexPat ++ ds) ++ '.' :: extHtml)) =
          some (K + 1)) := by
  have hslash_ih : ∀ ds : List Char, (∀ c ∈ ds, c.isDigit) →
      '/' ∉ ((indexPat ++ ds) ++ '.' :: extHtml) := by
    intro ds hdig hmem
    have hds : '/' ∉ ds := not_mem_of_all_digit hdig (by decide)
    rcases List.mem_append.1 hmem with h | h
    · rcases List.mem_append.1 h with h | h
      · exact absurd h (by decide)
      · exact hds h
    · exact absurd h (by decide)
  have hdot : '.' ∉ extHtml := by decide
  have hbase : ∀ ds : List Char, (∀ c ∈ ds, c.isDigit) →
      ∀ pre prev2 : List Char,
      (parse_std_url (pre ++ '/' :: ((indexPat ++ ds) ++ '.' :: extHtml))).2.2 =
        indexPat ++ ds := by
    intro ds hdig pre _
    rw [parse_std_url]
    simp only [rpartitionChar_append (hslash_ih ds hdig),
      rpartitionChar_append hdot]
  constructor
  · intro pre prev ds hne hdig
    obtain ⟨n, hn⟩ := parseDigits_isSome hne hdig
    refine ⟨n, hn, ?_⟩
    rw [articleListIdx]
    simp only [hbase ds hdig pre prev, indexSuffix_self]
    rw [if_pos hne, hn]
  · intro pre pre2 ds K hdig hK
    have hne : ds ≠ [] := by
      intro h
      rw [h, parseDigits, if_pos rfl] at hK
      exact absurd hK (by simp)
    have hown : (parse_std_url (pre ++ '/' :: (indexPat ++ '.' :: extHtml))).2.2 =
        indexPat := by
      have h := hbase [] (by intro c hc; exact absurd hc (List.not_mem_nil c))
        pre pre2
      simpa using h
    rw [articleListIdx]
    simp only [hown, hbase ds hdig pre2 pre, indexSuffix_self]
    have hsuf : indexSuffix indexPat = [] := by decide
    rw [hsuf, if_neg (by simp), hK]
    rfl

/-- Witness for C8 at concrete listing addresses. -/
theorem articleListIdx_spec_w :
    parseDigits (strL "122") = some 122 ∧
      articleListIdx
        (strL "/bbs/Drink" ++ '/' :: ((indexPat ++ strL "122") ++ '.' :: extHtml))
        [] = some 122 ∧
      articleListIdx (strL "/bbs/Drink" ++ '/' :: (indexPat ++ '.' :: extHtml))
        (strL "/bbs/Drink" ++ '/' :: ((indexPat ++ strL "122") ++ '.' :: extHtml)) =
        some 123 := by
  obtain ⟨n, hn, hidx⟩ := articleListIdx_spec.1 (strL "/bbs/Drink") []
    (strL "122") (by decide) (by decide)
  have hn122 : n = 122 := by
    have : parseDigits (strL "122") = some 122 := by decide
    rw [this] at hn
    exact (Option.some.inj hn).symm
  subst hn122
  refine ⟨hn, hidx, ?_⟩
  exact articleListIdx_spec.2 (strL "/bbs/Drink") (strL "/bbs/Drink")
    (strL "122") 122 (by decide) hn

/-! ### Body and signature split (ArticlePage.__init__, lines 386-399) -/

/-- Python `'--' in s`: two consecutive dashes occur in `s`. -/
def hasDD : List Char → Bool
  | [] => false
  | [_] => false
  | a :: b :: rest => if a = '-' ∧ b = '-' then true else hasDD (b :: rest)

/-- Python `s.split('--')`: the pieces between non-overlapping occurrences
of `"--"`, scanned left to right. -/
def splitDD : List Char → List (List Char)
  | [] => [[]]
  | [c] => [[c]]
  | a :: b :: rest =>
    if a = '-' ∧ b = '-' then
      [] :: splitDD rest
    else
      match splitDD (b :: rest) with
      | [] => [[a]]
      | p :: ps => (a :: p) :: ps

/-- Model of the content/signature split (lines 386-399): when `"--"`
occurs, the content is the stripped first piece of `split('--')` and the
signature the second piece; otherwise the content is the whole stripped
text and the signature empty. -/
def splitContentSignature (s : List Char) : List Char × List Char :=
  if hasDD s then
    let parts := splitDD s
    (stripPy (parts.headD []), if 1 < parts.length then parts.getD 1 [] else [])
  else (stripPy s, [])

/-- Claim C4 as written, from the spec's words: the body is everything
before the first two-character delimiter and the signature everything after
it; with no delimiter the body is the whole text and the signature empty. -/
def specSplitAtDD (s : List Char) : List Char × List Char :=
  match splitAtFirstSeq ['-', '-'] s with
  | some (pre, post) => (pre, post)
  | none => (s, [])

/-! Lemmas about the split. -/

theorem hasDD_append_dd (a b : List Char) :
    hasDD (a ++ '-' :: '-' :: b) = true := by
  induction a with
  | nil => simp [hasDD]
  | cons x xs ih =>
    cases xs with
    | nil => simp [hasDD]
    | cons y ys =>
      rw [show ((x :: y :: ys) ++ '-' :: '-' :: b : List Char) =
          x :: y :: (ys ++ '-' :: '-' :: b) from rfl, hasDD]
      split
      · rfl
      · exact ih

theorem splitDD_no_dd {s : List Char} (h : hasDD s = false) :
    splitDD s = [s] := by
  induction s with
  | nil => rfl
  | cons c rest ih =>
    cases rest with
    | nil => rfl
    | cons c2 rest2 =>
      rw [hasDD] at h
      split at h
      · exact absurd h (by simp)
      · rename_i hguard
        rw [splitDD, if_neg hguard, ih h]

theorem splitDD_cons_dd (b : List Char) :
    splitDD ('-' :: '-' :: b) = [] :: splitDD b := by
  rw [splitDD, if_pos ⟨rfl, rfl⟩]

theorem splitDD_append_dd {a : List Char} (b : List Char)
    (h : hasDD (a ++ ['-']) = false) :
    splitDD (a ++ '-' :: '-' :: b) = a :: splitDD b := by
  induction a with
  | nil => exact splitDD_cons_dd b
  | cons x xs ih =>
    cases xs with
    | nil =>
      rw [show ([x] ++ ['-'] : List Char) = [x, '-'] from rfl, hasDD] at h
      split at h
      · exact absurd h (by simp)
      · rename_i hguard
        rw [show ([x] ++ '-' :: '-' :: b : List Char) = x :: '-' :: '-' :: b
            from rfl]
        rw [splitDD, if_neg hguard, splitDD_cons_dd]
    | cons y ys =>
      rw [show ((x :: y :: ys) ++ ['-'] : List Char) =
          x :: y :: (ys ++ ['-']) from rfl, hasDD] at h
      split at h
      · exact absurd h (by simp)
      · rename_i hguard
        have hrec : splitDD ((y :: ys) ++ '-' :: '-' :: b) =
            (y :: ys) :: splitDD b := ih h
        rw [show ((x :: y :: ys) ++ '-' :: '-' :: b : List Char) =
            x :: y :: (ys ++ '-' :: '-' :: b) from rfl]
        rw [splitDD, if_neg hguard,
          show (y :: (ys ++ '-' :: '-' :: b) : List Char) =
            (y :: ys) ++ '-' :: '-' :: b from rfl, hrec]

/-! ### Claim C4: body/signature decomposition -/

/-- C4 counterexample: for the content `"a--b--c"` the code's signature is
`"b"`, the piece between the first and second delimiter of `split('--')`,
not `"b--c"`, everything after the first delimiter as the claim states. -/
theorem splitContentSignature_cex :
    splitContentSignature (strL "a--b--c") = (strL "a", strL "b") ∧
      specSplitAtDD (strL "a--b--c") = (strL "a", strL "b--c") ∧
      (splitContentSignature (strL "a--b--c")).2 ≠
        (specSplitAtDD (strL "a--b--c")).2 := by
  refine ⟨by decide, by decide, by decide⟩

/-- C4 (amended): with no `"--"` in the content, the body is the whole text
stripped and the signature empty; otherwise the body is the text before the
first `"--"` stripped, and the signature is the piece of `split('--')`
between the first and the second occurrence — everything after the first
occurrence only when no second one exists. -/
theorem splitContentSignature_spec :
    (∀ s : List Char, hasDD s = false →
        splitContentSignature s = (stripPy s, [])) ∧
    (∀ a b : List Char, hasDD (a ++ ['-']) = false → hasDD b = false →
        splitContentSignature (a ++ '-' :: '-' :: b) = (stripPy a, b)) ∧
    (∀ a b c : List Char, hasDD (a ++ ['-']) = false →
        hasDD (b ++ ['-']) = false →
        splitContentSignature (a ++ '-' :: '-' :: (b ++ '-' :: '-' :: c)) =
          (stripPy a, b)) := by
  refine ⟨?_, ?_, ?_⟩
  · intro s h
    simp [splitContentSignature, h]
  · intro a b h1 h2
    simp [splitContentSignature, hasDD_append_dd, splitDD_append_dd b h1,
      splitDD_no_dd h2]
  · intro a b c h1 h2
    simp [splitContentSignature, hasDD_append_dd,
      splitDD_append_dd (b ++ '-' :: '-' :: c) h1, splitDD_append_dd c h2]

/-- Witness for C4 at concrete article texts. -/
theorem splitContentSignature_spec_w :
    splitContentSignature (strL "no delimiter here") =
        (stripPy (strL "no delimiter here"), []) ∧
      splitContentSignature (strL "body " ++ '-' :: '-' :: strL "sig") =
        (stripPy (strL "body "), strL "sig") :=
  ⟨splitContentSignature_spec.1 (strL "no delimiter here") (by decide),
    splitContentSignature_spec.2.1 (strL "body ") (strL "sig")
      (by decide) (by decide)⟩

/-! ### Source IP extraction (ArticlePage.__init__ lines 359-368 and
_extract_ip_fallback lines 459-483) -/

/-- Helper for `splitWsPy`: `acc` holds the reversed current token. -/
def splitWsAux : List Char → List Char → List (List Char)
  | [], acc => if acc = [] then [] else [acc.reverse]
  | c :: rest, acc =>
    if isSpacePy c then
      if acc = [] then splitWsAux rest []
      else acc.reverse :: splitWsAux rest []
    else splitWsAux rest (c :: acc)

/-- Python `str.split()` with no argument: whitespace-delimited tokens with
empties discarded. -/
def splitWsPy (s : List Char) : List (List Char) := splitWsAux s []

/-- Match the pattern `\((\d{1,3}\.\d{1,3}\.\d{1,3}\.\d{1,3})\)` at the head
of the list and return the captured group. A greedy `\d{1,3}` followed by a
non-digit literal matches exactly a maximal digit run of length 1 to 3. -/
def matchIpAt (s : List Char) : Option (List Char) :=
  match s with
  | '(' :: r0 =>
    let d1 := r0.takeWhile Char.isDigit
    let r1 := r0.dropWhile Char.isDigit
    if d1.length = 0 ∨ 3 < d1.length then none else
    match r1 with
    | '.' :: r1b =>
      let d2 := r1b.takeWhile Char.isDigit
      let r2 := r1b.dropWhile Char.isDigit
      if d2.length = 0 ∨ 3 < d2.length then none else
      match r2 with
      | '.' :: r2b =>
        let d3 := r2b.takeWhile Char.isDigit
        let r3 := r2b.dropWhile Char.isDigit
        if d3.length = 0 ∨ 3 < d3.length then none else
        match r3 with
        | '.' :: r3b =>
          let d4 := r3b.takeWhile Char.isDigit
          let r4 := r3b.dropWhile Char.isDigit
          if d4.length = 0 ∨ 3 < d4.length then none else
          match r4 with
          | ')' :: _ => some (d1 ++ '.' :: d2 ++ '.' :: d3 ++ '.' :: d4)
          | _ => none
        | _ => none
      | _ => none
    | _ => none
  | _ => none

/-- Python `re.search` with the parenthesised-IP pattern: the leftmost
match over the text. -/
def findIpParen : List Char → Option (List Char)
  | [] => none
  | c :: rest =>
    match matchIpAt (c :: rest) with
    | some ip => some ip
    | none => findIpParen rest

/-- The second fallback method (lines 471-476): scan the small-print span
texts for one containing a `來自:` or `From:` label whose text matches the
IP pattern; spans with the label but no match are passed over. -/
def fromLineScan : List (List Char) → Option (List Char)
  | [] => none
  | t :: rest =>
    if containsSeq (strL "來自:") t || containsSeq (strL "From:") t then
      match findIpParen t with
      | some ip => some ip
      | none => fromLineScan rest
    else fromLineScan rest

/-- Model of `_extract_ip_fallback` (lines 459-483): first the IP pattern
over the whole text, then the labelled from-lines, then the sentinel. -/
def extract_ip_fallback (fullText : List Char) (f2 : List (List Char)) :
    List Char :=
  match findIpParen fullText with
  | some ip => ip
  | none =>
    match fromLineScan f2 with
    | some ip => ip
    | none => strL "Unknown"

/-- Model of the IP derivation (lines 359-368): when the `發信站` entry of
the annotation dictionary is present and nonempty, the last
whitespace-token of its first value; the IndexError of a tokenless value is
caught as the sentinel; otherwise the fallback chain runs. `originVals` is
that dictionary entry (empty list when the key is absent), `fullText` the
container text and `f2` the remaining small-print span texts. -/
def extractIp (originVals : List (List Char)) (fullText : List Char)
    (f2 : List (List Char)) : List Char :=
  match originVals with
  | [] => extract_ip_fallback fullText f2
  | v :: _ =>
    match (splitWsPy v).getLast? with
    | some tok => tok
    | none => strL "Unknown"

/-- Claim C5's strategy order as written, from the spec's words: declared
origin line, then labelled from-line, then pattern match over the full
text, then the sentinel. -/
def extractIpSpecOrder (originVals : List (List Char)) (fullText : List Char)
    (f2 : List (List Char)) : List Char :=
  match originVals with
  | [] =>
    match fromLineScan f2 with
    | some ip => ip
    | none =>
      match findIpParen fullText with
      | some ip => ip
      | none => strL "Unknown"
  | v :: _ =>
    match (splitWsPy v).getLast? with
    | some tok => tok
    | none => strL "Unknown"

/-! ### Claim C5: sourceIp fallback order -/

/-- C5 counterexample: with no declared origin, a body containing
`(1.2.3.4)` and a from-line containing `(5.6.7.8)`, the code returns
`1.2.3.4` — the full-text pattern match runs before the from-line scan, the
opposite of the claimed order, which would return `5.6.7.8`. -/
theorem extractIp_order_cex :
    extractIp [] (strL "(1.2.3.4) text From: (5.6.7.8)")
        [strL "From: (5.6.7.8)"] = strL "1.2.3.4" ∧
      extractIpSpecOrder [] (strL "(1.2.3.4) text From: (5.6.7.8)")
        [strL "From: (5.6.7.8)"] = strL "5.6.7.8" ∧
      extractIp [] (strL "(1.2.3.4) text From: (5.6.7.8)")
          [strL "From: (5.6.7.8)"] ≠
        extractIpSpecOrder [] (strL "(1.2.3.4) text From: (5.6.7.8)")
          [strL "From: (5.6.7.8)"] := by
  refine ⟨by decide, by decide, by decide⟩

/-- C5 (amended): the strategies are tried in the order declared origin
line → IP-pattern match over the full text → labelled from-line → sentinel
`"Unknown"`, the first success winning; the derivation is total, with the
origin line's IndexError mapped to the sentinel. -/
theorem extractIp_order_spec :
    (∀ v : List Char, ∀ vs : List (List Char), ∀ ft : List Char,
        ∀ f2 : List (List Char), ∀ tok : List Char,
        (splitWsPy v).getLast? = some tok → extractIp (v :: vs) ft f2 = tok) ∧
    (∀ v : List Char, ∀ vs : List (List Char), ∀ ft : List Char,
        ∀ f2 : List (List Char),
        splitWsPy v = [] → extractIp (v :: vs) ft f2 = strL "Unknown") ∧
    (∀ ft : List Char, ∀ f2 : List (List Char), ∀ ip : List Char,
        findIpParen ft = some ip → extractIp [] ft f2 = ip) ∧
    (∀ ft : List Char, ∀ f2 : List (List Char), ∀ ip : List Char,
        findIpParen ft = none → fromLineScan f2 = some ip →
        extractIp [] ft f2 = ip) ∧
    (∀ ft : List Char, ∀ f2 : List (List Char),
        findIpParen ft = none → fromLineScan f2 = none →
        extractIp [] ft f2 = strL "Unknown") := by
  refine ⟨?_, ?_, ?_, ?_, ?_⟩
  · intro v vs ft f2 tok h
    rw [extractIp, h]
  · intro v vs ft f2 h
    rw [extractIp, h]
    rfl
  · intro ft f2 ip h
    rw [extractIp, extract_ip_fallback, h]
  · intro ft f2 ip h1 h2
    rw [extractIp, extract_ip_fallback, h1, h2]
  · intro ft f2 h1 h2
    rw [extractIp, extract_ip_fallback, h1, h2]

/-- Witness for C5 at concrete texts, one per strategy. -/
theorem extractIp_order_spec_w :
    extractIp [strL "※ 發信站: 批踢踢實業坊(ptt.cc), 來自: 1.2.3.4"] [] [] =
        strL "1.2.3.4" ∧
      extractIp [] (strL "text (9.8.7.6) more") [] = strL "9.8.7.6" ∧
      extractIp [] (strL "no ip here") [strL "From: (5.6.7.8)"] =
        strL "5.6.7.8" ∧
      extractIp [] (strL "no ip here") [] = strL "Unknown" :=
  ⟨extractIp_order_spec.1 (strL "※ 發信站: 批踢踢實業坊(ptt.cc), 來自: 1.2.3.4")
      [] [] [] (strL "1.2.3.4") (by decide),
    extractIp_order_spec.2.2.1 (strL "text (9.8.7.6) more") []
      (strL "9.8.7.6") (by decide),
    extractIp_order_spec.2.2.2.1 (strL "no ip here") [strL "From: (5.6.7.8)"]
      (strL "5.6.7.8") (by decide) (by decide),
    extractIp_order_spec.2.2.2.2 (strL "no ip here") [] (by decide)
      (by decide)⟩

/-! ### Per-page crawl accumulation (ptt_crawl, lines 584-701) -/

/-- The `ArticlePage` fields that `ptt_crawl` copies into one result row
(lines 611-625). -/
structure ArticleRec where
  aid : List Char
  author : List Char
  board : List Char
  category : Option (List Char)
  title : List Char
  content : List Char
  url : List Char
  date : List Char
  ip : List Char
  count : PushCount
  deriving DecidableEq, Repr

/-- What one listing summary contributed to the page loop (lines 601-676):
skipped because removed, skipped because `read()` or row building raised,
or one successfully fetched and parsed article. -/
inductive FetchOutcome
  | removedSkip
  | readFailed
  | gotArticle (a : ArticleRec)
  deriving DecidableEq, Repr

/-- Model of the page result set of `ptt_crawl` (lines 601-697): each
successfully fetched article yields one row, removed and failed summaries
yield nothing, and rows whose title equals the empty string are dropped by
the final filter (line 697). -/
def ptt_crawl_rows (outcomes : List FetchOutcome) : List ArticleRec :=
  (outcomes.filterMap fun o =>
      match o with
      | .gotArticle a => some a
      | _ => none).filter
    fun a => !a.title.isEmpty

/-! ### Claim C10: empty-title rows are silently excluded -/

/-- C10: every row of the per-page result set has a nonempty title, and an
article that was fetched and parsed successfully but whose title degraded
to the empty string is excluded from the result set. -/
theorem ptt_crawl_rows_spec (outcomes : List FetchOutcome) :
    (∀ a ∈ ptt_crawl_rows outcomes, a.title ≠ []) ∧
    (∀ a : ArticleRec, FetchOutcome.gotArticle a ∈ outcomes → a.title = [] →
        a ∉ ptt_crawl_rows outcomes) := by
  constructor
  · intro a ha
    have h := (List.mem_filter.1 ha).2
    simpa using h
  · intro a _ hta hmem
    have h := (List.mem_filter.1 hmem).2
    rw [hta] at h
    simp at h

/-- A fetched article with a normal title. -/
def rowTitled : ArticleRec :=
  ⟨strL "M.1.A.1", strL "u1", strL "Drink", none, strL "[問題] t", [], [],
    [], [], ⟨0, 0, 0, 0, 0, 0⟩⟩

/-- A fetched article whose metadata degraded to an empty title. -/
def rowUntitled : ArticleRec :=
  ⟨strL "M.2.A.2", strL "u2", strL "Drink", none, [], [], [], [], [],
    ⟨0, 0, 0, 0, 0, 0⟩⟩

/-- Witness for C10 on a concrete page outcome list. -/
theorem ptt_crawl_rows_spec_w :
    rowTitled.title ≠ [] ∧
      rowUntitled ∉ ptt_crawl_rows
        [FetchOutcome.gotArticle rowTitled, FetchOutcome.removedSkip,
          FetchOutcome.gotArticle rowUntitled] :=
  ⟨(ptt_crawl_rows_spec [FetchOutcome.gotArticle rowTitled,
        FetchOutcome.removedSkip, FetchOutcome.gotArticle rowUntitled]).1
      rowTitled (by decide),
    (ptt_crawl_rows_spec [FetchOutcome.gotArticle rowTitled,
        FetchOutcome.removedSkip, FetchOutcome.gotArticle rowUntitled]).2
      rowUntitled (by decide) rfl⟩

end PttCrawler
